import Mathlib

/-!
Verification of the vcpkg/ffmpeg preparation tool.

This file gives a shallow embedding, in Lean, of the two subsystems of the
repository that the specification covers: the structural source patcher
(`src/addon_preparer.rs`) and the dependency orchestrator
(`src/vcpkg_manager.rs`).  Text buffers are modelled as `List Char`
(the Rust code iterates over the bytes of UTF-8 strings; all delimiters and
patterns involved are ASCII, so byte positions and character positions agree
on the inputs of interest).  Filesystem and subprocess effects are modelled
by explicit state passing with outcome oracles for the external world.
-/

namespace VcpkgFF

/-! ### Basic string operations (models of Rust `str` methods) -/

/-- Model of Rust `str::contains(pat)`: `pat` occurs as a contiguous
substring of `s`. -/
def containsSub (pat : List Char) : List Char → Bool
  | [] => pat.isEmpty
  | c :: s => pat.isPrefixOf (c :: s) || containsSub pat s

/-- Model of Rust `str::find(pat)`: index of the leftmost occurrence of the
substring `pat` in `s`. -/
def findSub (pat : List Char) : List Char → Option Nat
  | [] => if pat.isEmpty then some 0 else none
  | c :: s =>
    if pat.isPrefixOf (c :: s) then some 0
    else (findSub pat s).map (· + 1)

/-- Model of Rust `str::find(ch)` for a single character pattern. -/
def findChar (ch : Char) : List Char → Option Nat
  | [] => none
  | c :: s => if c = ch then some 0 else (findChar ch s).map (· + 1)

/-- Worker for `replaceAll`, structurally recursive on a fuel argument so
that the kernel can evaluate it.  `replaceAll` always supplies enough fuel
(one unit per character of the text), and every step consumes at least one
character when the pattern is non-empty, so the `0` fallback is never hit
on the calls made by `replaceAll` with a non-empty pattern. -/
def replaceAllGo (pat rep : List Char) : Nat → List Char → List Char
  | _, [] => []
  | 0, s => s
  | fuel + 1, c :: s =>
    if pat.isPrefixOf (c :: s) then
      rep ++ replaceAllGo pat rep fuel (List.drop pat.length (c :: s))
    else
      c :: replaceAllGo pat rep fuel s

/-- Model of Rust `str::replace(pat, rep)`: replace every leftmost,
non-overlapping occurrence of `pat` by `rep`, scanning left to right. -/
def replaceAll (pat rep s : List Char) : List Char :=
  replaceAllGo pat rep s.length s

/-- The Unicode code points with the White_Space property, as used by Rust
`char::is_whitespace` (and hence by `str::trim_end` / `str::trim_start`). -/
def rustWhitespace : List Nat :=
  [0x09, 0x0A, 0x0B, 0x0C, 0x0D, 0x20, 0x85, 0xA0, 0x1680,
   0x2000, 0x2001, 0x2002, 0x2003, 0x2004, 0x2005, 0x2006, 0x2007,
   0x2008, 0x2009, 0x200A, 0x2028, 0x2029, 0x202F, 0x205F, 0x3000]

/-- Model of Rust `char::is_whitespace`. -/
def rustIsWhitespace (c : Char) : Bool :=
  rustWhitespace.contains c.toNat

/-- Model of Rust `str::trim_start`: drop leading whitespace characters. -/
def trimStart (s : List Char) : List Char :=
  s.dropWhile rustIsWhitespace

/-- Model of Rust `str::trim_end`: drop trailing whitespace characters. -/
def trimEnd (s : List Char) : List Char :=
  (s.reverse.dropWhile rustIsWhitespace).reverse

end VcpkgFF

namespace VcpkgFF

/-! ### Structural source patcher (`src/addon_preparer.rs`) -/

/-- Opening-brace character, via its code point. -/
def braceOpen : Char := Char.ofNat 123

/-- Closing-brace character, via its code point. -/
def braceClose : Char := Char.ofNat 125

/-- Double-quote character. -/
def quoteChar : Char := Char.ofNat 34

/-- Backslash character. -/
def backslashChar : Char := Char.ofNat 92

/-- Search text of the first visibility change in `modify_ffmpeg_c_content`. -/
def transcodePat : List Char := "static int transcode(Scheduler *sch)".toList

/-- Replacement text of the first visibility change. -/
def transcodeRep : List Char := "int transcode(Scheduler *sch)".toList

/-- Search text of the second visibility change in `modify_ffmpeg_c_content`. -/
def cleanupPat : List Char := "static void ffmpeg_cleanup(int ret)".toList

/-- Replacement text of the second visibility change. -/
def cleanupRep : List Char := "void ffmpeg_cleanup(int ret)".toList

/-- The visibility-change operation for the `transcode` signature:
`content.replace("static int transcode(Scheduler *sch)", "int transcode(Scheduler *sch)")`. -/
def visibility_transcode (content : List Char) : List Char :=
  replaceAll transcodePat transcodeRep content

/-- The visibility-change operation for the `ffmpeg_cleanup` signature. -/
def visibility_cleanup (content : List Char) : List Char :=
  replaceAll cleanupPat cleanupRep content

/-- The brace/string/escape scan loop inside `remove_main_function`
(`addon_preparer.rs` lines 178-207).  `i` is the running index (the code
enumerates bytes), `depth` is `brace_count` (an `i32` in the source; the
depth is bounded by the text length, far below the `i32` range, so `Int`
is used), `inStr` is `in_string`, `esc` is `escape_next`.  Returns
`some (i + 1)` for the index one past the closing brace at which
`brace_count` returns to zero, `none` if the buffer ends first. -/
def scanBrace : List Char → Nat → Int → Bool → Bool → Option Nat
  | [], _, _, _, _ => none
  | c :: cs, i, depth, inStr, esc =>
    if esc = true then scanBrace cs (i + 1) depth inStr false
    else if c = backslashChar ∧ inStr = true then scanBrace cs (i + 1) depth inStr true
    else if c = quoteChar then scanBrace cs (i + 1) depth (!inStr) false
    else if c = braceOpen ∧ inStr = false then scanBrace cs (i + 1) (depth + 1) inStr false
    else if c = braceClose ∧ inStr = false then
      (if depth - 1 = 0 then some (i + 1) else scanBrace cs (i + 1) (depth - 1) inStr false)
    else scanBrace cs (i + 1) depth inStr false

/-- The signature anchoring `remove_main_function`. -/
def mainSig : List Char := "int main(int argc, char **argv)".toList

/-- The marker comment substituted for the removed `main` function. -/
def removalMarker : List Char :=
  "/*\n * Main function removed for Node.js addon\n * Use ffmpeg_run() instead\n */\n".toList

/-- `AddonPreparer::remove_main_function` (`addon_preparer.rs` lines
171-224): find the `main` signature, the first opening brace after it, and
the matching closing brace via `scanBrace`; replace the span with
`removalMarker`, trimming whitespace around the cut.  Every fall-through
path returns the content unchanged as `Ok`; the Rust function never
returns `Err`. -/
def remove_main_function (content : List Char) : Except (List Char) (List Char) :=
  match findSub mainSig content with
  | none => .ok content
  | some startPos =>
    match findChar braceOpen (content.drop startPos) with
    | none => .ok content
    | some funcStartPos =>
      match scanBrace (content.drop (startPos + funcStartPos)) 0 0 false false with
      | none => .ok content
      | some endRel =>
        .ok (trimEnd (content.take startPos) ++ removalMarker
              ++ trimStart (content.drop (startPos + funcStartPos + endRel)))

/-- The include line whose presence makes `add_napi_include` skip. -/
def napiIncludeText : List Char := "#include <node_api.h>".toList

/-- The marker after which `add_napi_include` inserts. -/
def includeMarker : List Char := "#include \"ffmpeg_utils.h\"".toList

/-- The text inserted by `add_napi_include` after the marker. -/
def napiInsertText : List Char := "\n#include <node_api.h>\n".toList

/-- `AddonPreparer::add_napi_include` (`addon_preparer.rs` lines 152-168).
Skips when the include is already present; otherwise inserts after the
marker; returns the content unchanged when the marker is absent.  The Rust
function never returns `Err`. -/
def add_napi_include (content : List Char) : Except (List Char) (List Char) :=
  if containsSub napiIncludeText content = true then .ok content
  else
    match findSub includeMarker content with
    | some pos =>
      .ok (content.take (pos + includeMarker.length) ++ napiInsertText
            ++ content.drop (pos + includeMarker.length))
    | none => .ok content

/-- The stable substring whose presence makes `add_ffmpeg_run_function`
skip (the declared name of the inserted entry point). -/
def ffmpegRunGuard : List Char := "napi_value ffmpeg_run".toList

/-- The `run_function` raw literal appended by `add_ffmpeg_run_function`
(`addon_preparer.rs` lines 233-437), verbatim (it is a Rust raw string, so
backslash-n sequences inside it are two characters). -/
def runFunctionText : List Char :=
  "\n\n/**\n * Run ffmpeg with arguments (N-API function for Node.js addon)\n * This function replaces the main() function for use in Node.js addon\n */\nnapi_value ffmpeg_run(napi_env env, napi_callback_info info)\n\x7b\n    napi_status status;\n    size_t argc = 1;\n    napi_value argv[1];\n    napi_value result;\n    Scheduler *sch = NULL;\n    int ret;\n    BenchmarkTimeStamps ti;\n    \n    // 获取参数\n    status = napi_get_cb_info(env, info, &argc, argv, NULL, NULL);\n    if (status != napi_ok) \x7b\n        napi_throw_error(env, NULL, \"Failed to get callback info\");\n        return NULL;\n    \x7d\n    \n    if (argc < 1) \x7b\n        napi_throw_type_error(env, NULL, \"Expected an array of arguments\");\n        return NULL;\n    \x7d\n    \n    // 检查第一个参数是否为数组\n    napi_valuetype valuetype;\n    status = napi_typeof(env, argv[0], &valuetype);\n    if (status != napi_ok || valuetype != napi_object) \x7b\n        napi_throw_type_error(env, NULL, \"Expected an array of arguments\");\n        return NULL;\n    \x7d\n    \n    // 检查是否为数组\n    bool is_array;\n    status = napi_is_array(env, argv[0], &is_array);\n    if (status != napi_ok || !is_array) \x7b\n        napi_throw_type_error(env, NULL, \"Expected an array of arguments\");\n        return NULL;\n    \x7d\n    \n    // 获取数组长度\n    uint32_t array_length;\n    status = napi_get_array_length(env, argv[0], &array_length);\n    if (status != napi_ok) \x7b\n        napi_throw_error(env, NULL, \"Failed to get array length\");\n        return NULL;\n    \x7d\n    \n    // 分配内存存储字符串参数\n    // 需要额外一个位置给\"ffmpeg\"程序名\n    int total_args = (int)array_length + 1;\n    char **argv_ptr = (char **)av_mallocz(sizeof(char *) * total_args);\n    if (!argv_ptr) \x7b\n        napi_throw_error(env, NULL, \"Failed to allocate memory\");\n        return NULL;\n    \x7d\n    \n    // 存储字符串内容的内存（需要持久化）\n    char **str_storage = (char **)av_mallocz(sizeof(char *) * total_args);\n    if (!str_storage) \x7b\n        av_free(argv_ptr);\n        napi_throw_error(env, NULL, \"Failed to allocate memory\");\n        return NULL;\n    \x7d\n    \n    // 第一个参数是程序名\n    argv_ptr[0] = \"ffmpeg\";\n    \n    // 从JavaScript数组提取字符串参数\n    for (uint32_t i = 0; i < array_length; i++) \x7b\n        napi_value element;\n        status = napi_get_element(env, argv[0], i, &element);\n        if (status != napi_ok) \x7b\n            // 清理内存\n            for (int j = 0; j < i + 1; j++) \x7b\n                if (str_storage[j]) av_free(str_storage[j]);\n            \x7d\n            av_free(str_storage);\n            av_free(argv_ptr);\n            napi_throw_error(env, NULL, \"Failed to get array element\");\n            return NULL;\n        \x7d\n        \n        // 获取字符串值\n        size_t str_len;\n        status = napi_get_value_string_utf8(env, element, NULL, 0, &str_len);\n        if (status != napi_ok) \x7b\n            // 清理内存\n            for (int j = 0; j < i + 1; j++) \x7b\n                if (str_storage[j]) av_free(str_storage[j]);\n            \x7d\n            av_free(str_storage);\n            av_free(argv_ptr);\n            napi_throw_type_error(env, NULL, \"Array element must be a string\");\n            return NULL;\n        \x7d\n        \n        // 分配内存并复制字符串\n        str_storage[i + 1] = (char *)av_mallocz(str_len + 1);\n        if (!str_storage[i + 1]) \x7b\n            // 清理内存\n            for (int j = 0; j < i + 1; j++) \x7b\n                if (str_storage[j]) av_free(str_storage[j]);\n            \x7d\n            av_free(str_storage);\n            av_free(argv_ptr);\n            napi_throw_error(env, NULL, \"Failed to allocate memory for string\");\n            return NULL;\n        \x7d\n        \n        size_t copied;\n        status = napi_get_value_string_utf8(env, element, str_storage[i + 1], str_len + 1, &copied);\n        if (status != napi_ok) \x7b\n            // 清理内存\n            for (int j = 0; j < i + 2; j++) \x7b\n                if (str_storage[j]) av_free(str_storage[j]);\n            \x7d\n            av_free(str_storage);\n            av_free(argv_ptr);\n            napi_throw_error(env, NULL, \"Failed to get string value\");\n            return NULL;\n        \x7d\n        \n        argv_ptr[i + 1] = str_storage[i + 1];\n    \x7d\n    \n    // 调用ffmpeg核心逻辑\n    init_dynload();\n    \n    setvbuf(stderr, NULL, _IONBF, 0);\n    \n    av_log_set_flags(AV_LOG_SKIP_REPEATED);\n    parse_loglevel(total_args, argv_ptr, options);\n    \n#if CONFIG_AVDEVICE\n    avdevice_register_all();\n#endif\n    avformat_network_init();\n    \n    sch = sch_alloc();\n    if (!sch) \x7b\n        ret = AVERROR(ENOMEM);\n        goto finish;\n    \x7d\n    \n    ret = ffmpeg_parse_options(total_args, argv_ptr, sch);\n    if (ret < 0)\n        goto finish;\n    \n    if (nb_output_files <= 0 && nb_input_files == 0) \x7b\n        av_log(NULL, AV_LOG_WARNING, \"No input or output files specified\\n\");\n        ret = 1;\n        goto finish;\n    \x7d\n    \n    if (nb_output_files <= 0) \x7b\n        av_log(NULL, AV_LOG_FATAL, \"At least one output file must be specified\\n\");\n        ret = 1;\n        goto finish;\n    \x7d\n    \n    current_time = ti = get_benchmark_time_stamps();\n    ret = transcode(sch);\n    if (ret >= 0 && do_benchmark) \x7b\n        int64_t utime, stime, rtime;\n        current_time = get_benchmark_time_stamps();\n        utime = current_time.user_usec - ti.user_usec;\n        stime = current_time.sys_usec  - ti.sys_usec;\n        rtime = current_time.real_usec - ti.real_usec;\n        av_log(NULL, AV_LOG_INFO,\n               \"bench: utime=%0.3fs stime=%0.3fs rtime=%0.3fs\\n\",\n               utime / 1000000.0, stime / 1000000.0, rtime / 1000000.0);\n    \x7d\n    \n    ret = received_nb_signals                 ? 255 :\n          (ret == FFMPEG_ERROR_RATE_EXCEEDED) ?  69 : ret;\n    \nfinish:\n    if (ret == AVERROR_EXIT)\n        ret = 0;\n    \n    ffmpeg_cleanup(ret);\n    \n    sch_free(&sch);\n    \n    // 清理字符串内存\n    for (int i = 1; i < total_args; i++) \x7b\n        if (str_storage[i]) av_free(str_storage[i]);\n    \x7d\n    av_free(str_storage);\n    av_free(argv_ptr);\n    \n    // 返回结果\n    status = napi_create_int32(env, ret, &result);\n    if (status != napi_ok) \x7b\n        return NULL;\n    \x7d\n    \n    return result;\n\x7d\n".toList

/-- `AddonPreparer::add_ffmpeg_run_function` (`addon_preparer.rs` lines
227-440): append `runFunctionText` unless the guard substring is already
present.  Never returns `Err`. -/
def add_ffmpeg_run_function (content : List Char) : Except (List Char) (List Char) :=
  if containsSub ffmpegRunGuard content = true then .ok content
  else .ok (content ++ runFunctionText)

/-- `AddonPreparer::modify_ffmpeg_c_content` (`addon_preparer.rs` lines
139-149): the fixed chain of patch operations applied to `ffmpeg.c`. -/
def modify_ffmpeg_c_content (content : List Char) : Except (List Char) (List Char) := do
  let m1 := visibility_transcode content
  let m2 := visibility_cleanup m1
  let m3 ← remove_main_function m2
  let m4 ← add_napi_include m3
  add_ffmpeg_run_function m4

end VcpkgFF

namespace VcpkgFF

/-! ### Lemmas about the string primitives -/

/-- `containsSub` decides substring occurrence (`List.IsInfix`). -/
theorem containsSub_iff_occurrence (pat : List Char) :
    ∀ s : List Char, containsSub pat s = true ↔ pat <:+: s
  | [] => by simp [containsSub, List.isEmpty_iff]
  | c :: s => by
    simp only [containsSub, Bool.or_eq_true, List.isPrefixOf_iff_prefix,
      containsSub_iff_occurrence pat s, List.infix_cons_iff]

/-- `containsSub` in terms of an occurrence position. -/
theorem containsSub_iff_drop (pat : List Char) :
    ∀ s : List Char, containsSub pat s = true ↔ ∃ i, pat <+: s.drop i
  | [] => by
    simp [containsSub, List.isEmpty_iff, List.prefix_nil]
  | c :: s => by
    simp only [containsSub, Bool.or_eq_true, List.isPrefixOf_iff_prefix,
      containsSub_iff_drop pat s]
    constructor
    · rintro (h | ⟨i, hi⟩)
      · exact ⟨0, h⟩
      · exact ⟨i + 1, by simpa using hi⟩
    · rintro ⟨i, hi⟩
      cases i with
      | zero => exact Or.inl hi
      | succ n => exact Or.inr ⟨n, by simpa using hi⟩

/-- An occurrence in the right part of an append is an occurrence. -/
theorem containsSub_append_right {pat t : List Char} (s : List Char)
    (h : containsSub pat t = true) : containsSub pat (s ++ t) = true := by
  rw [containsSub_iff_occurrence] at h ⊢
  obtain ⟨u, v, rfl⟩ := h
  exact ⟨s ++ u, v, by simp⟩

/-- An occurrence in the left part of an append is an occurrence. -/
theorem containsSub_append_left {pat s : List Char} (t : List Char)
    (h : containsSub pat s = true) : containsSub pat (s ++ t) = true := by
  rw [containsSub_iff_occurrence] at h ⊢
  obtain ⟨u, v, rfl⟩ := h
  exact ⟨u, v ++ t, by simp⟩

/-- When the pattern occurs nowhere, `replaceAllGo` is the identity (for
any fuel). -/
theorem replaceAllGo_of_not_contains (pat rep : List Char) :
    ∀ (s : List Char) (fuel : Nat), containsSub pat s = false →
      replaceAllGo pat rep fuel s = s
  | [], fuel, _ => by cases fuel <;> rfl
  | _ :: _, 0, _ => rfl
  | c :: s, fuel + 1, h => by
    have h' : pat.isPrefixOf (c :: s) = false ∧ containsSub pat s = false := by
      constructor
      · cases hp : pat.isPrefixOf (c :: s) with
        | false => rfl
        | true => simp [containsSub, hp] at h
      · cases hc : containsSub pat s with
        | false => rfl
        | true => simp [containsSub, hc] at h
    rw [replaceAllGo, if_neg (by simp [h'.1]),
      replaceAllGo_of_not_contains pat rep s fuel h'.2]

/-- When the pattern occurs nowhere, `replaceAll` (Rust `str::replace`) is
the identity. -/
theorem replaceAll_of_not_contains (pat rep : List Char) (s : List Char)
    (h : containsSub pat s = false) : replaceAll pat rep s = s :=
  replaceAllGo_of_not_contains pat rep s s.length h

/-- A non-empty pattern can only occur at a position inside the text. -/
theorem lt_length_of_prefix_drop {pat s : List Char} {i : Nat}
    (hne : pat ≠ []) (h : pat <+: s.drop i) : i < s.length := by
  by_contra hge
  rw [List.drop_eq_nil_of_le (Nat.le_of_not_lt hge)] at h
  exact hne (List.prefix_nil.1 h)

/-- `replaceAllGo` on a text with a unique occurrence of the (non-empty)
pattern replaces exactly that occurrence. -/
theorem replaceAllGo_unique (pat rep suf : List Char) (hne : pat ≠ []) :
    ∀ (pre : List Char) (fuel : Nat),
      (pre ++ pat ++ suf).length ≤ fuel →
      (∀ i, pat <+: ((pre ++ pat ++ suf).drop i) → i = pre.length) →
      replaceAllGo pat rep fuel (pre ++ pat ++ suf) = pre ++ rep ++ suf
  | [], fuel, hfuel, huniq => by
    obtain ⟨p, ps, rfl⟩ : ∃ p ps, pat = p :: ps := by
      cases pat with
      | nil => exact absurd rfl hne
      | cons p ps => exact ⟨p, ps, rfl⟩
    obtain ⟨f, rfl⟩ : ∃ f, fuel = f + 1 := by
      cases fuel with
      | zero => simp at hfuel
      | succ f => exact ⟨f, rfl⟩
    have hsuf : containsSub (p :: ps) suf = false := by
      cases hc : containsSub (p :: ps) suf with
      | false => rfl
      | true =>
        obtain ⟨i, hi⟩ := (containsSub_iff_drop _ _).1 hc
        have hdrop : (([] ++ (p :: ps) ++ suf : List Char)).drop ((p :: ps).length + i)
            = suf.drop i := by
          rw [List.nil_append, List.drop_append_eq_append_drop,
            List.drop_eq_nil_of_le (by simp), List.nil_append]
          congr 1
          simp
        have h' : (p :: ps) <+: (([] ++ (p :: ps) ++ suf : List Char)).drop
            ((p :: ps).length + i) := by
          rw [hdrop]; exact hi
        have := huniq ((p :: ps).length + i) h'
        simp at this
    have hpre : (p :: ps).isPrefixOf (p :: (ps ++ suf)) = true := by
      simp only [List.isPrefixOf_iff_prefix]
      exact List.prefix_append (p :: ps) suf
    show replaceAllGo (p :: ps) rep (f + 1) (p :: (ps ++ suf)) = rep ++ suf
    rw [replaceAllGo, if_pos hpre]
    have hdropped : List.drop (p :: ps).length (p :: (ps ++ suf)) = suf := by
      simpa using List.drop_left (p :: ps) suf
    rw [hdropped, replaceAllGo_of_not_contains _ _ _ _ hsuf]
  | a :: pre', fuel, hfuel, huniq => by
    obtain ⟨f, rfl⟩ : ∃ f, fuel = f + 1 := by
      cases fuel with
      | zero => simp at hfuel
      | succ f => exact ⟨f, rfl⟩
    have hnot : ¬ pat <+: ((a :: pre') ++ pat ++ suf) := by
      intro hp
      have h0 := huniq 0 (by simpa using hp)
      simp at h0
    show replaceAllGo pat rep (f + 1) (a :: (pre' ++ pat ++ suf)) = a :: (pre' ++ rep ++ suf)
    rw [replaceAllGo, if_neg (show ¬ pat.isPrefixOf (a :: (pre' ++ pat ++ suf)) = true by
      simpa [List.isPrefixOf_iff_prefix] using hnot)]
    rw [replaceAllGo_unique pat rep suf hne pre' f
      (by simpa using Nat.le_of_succ_le_succ (by simpa using hfuel))
      (fun i hi => by
        have := huniq (i + 1) (by simpa using hi)
        simpa using this)]

/-- Rust `str::replace` on a text containing exactly one occurrence of a
non-empty pattern: the occurrence is replaced and all other characters are
kept. -/
theorem replaceAll_unique (pat rep pre suf : List Char) (hne : pat ≠ [])
    (huniq : ∀ i, pat <+: ((pre ++ pat ++ suf).drop i) → i = pre.length) :
    replaceAll pat rep (pre ++ pat ++ suf) = pre ++ rep ++ suf :=
  replaceAllGo_unique pat rep suf hne pre _ le_rfl huniq

end VcpkgFF

namespace VcpkgFF

/-! ### Reference semantics for the brace scan

The scan in `remove_main_function` interleaves two concerns: skipping
string-literal content (with escape handling) and counting brace depth.
The reference semantics below separates them: `effBraces` lists the braces
that lie outside string literals, with their positions, and `dyckMatch` is
pure depth matching over that brace sequence.  The scan is proved equal to
their composition, and depth matching is proved to find the matching
closing brace on balanced inputs. -/

/-- Shift recorded positions by one (used when stepping over a character). -/
def shiftPos (l : List (Nat × Char)) : List (Nat × Char) :=
  l.map (fun p => (p.1 + 1, p.2))

/-- The characters of `s` that lie outside double-quoted string literals,
paired with their positions in `s`, under the lexical conventions of
`scanBrace` (`inStr`/`esc` give the scanner state at the start of `s`). -/
def effChars : List Char → Bool → Bool → List (Nat × Char)
  | [], _, _ => []
  | c :: cs, inStr, esc =>
    if esc = true then shiftPos (effChars cs inStr false)
    else if c = backslashChar ∧ inStr = true then shiftPos (effChars cs inStr true)
    else if c = quoteChar then shiftPos (effChars cs (!inStr) false)
    else if inStr = true then shiftPos (effChars cs inStr false)
    else (0, c) :: shiftPos (effChars cs inStr false)

/-- Test for a brace character. -/
def isBrace (c : Char) : Bool := c == braceOpen || c == braceClose

/-- The effective braces of `s`: braces outside string literals, with
their positions. -/
def effBraces (s : List Char) (inStr esc : Bool) : List (Nat × Char) :=
  (effChars s inStr esc).filter (fun p => isBrace p.2)

/-- Depth contribution of a brace. -/
def braceDir (c : Char) : Int := if c = braceOpen then 1 else -1

/-- Net depth change over a positioned brace sequence. -/
def braceSum (l : List (Nat × Char)) : Int := (l.map (fun p => braceDir p.2)).sum

/-- Pure depth matching over a positioned brace sequence: starting from
depth `d`, return one past the position of the closing brace at which the
depth first returns to zero. -/
def dyckMatch : List (Nat × Char) → Int → Option Nat
  | [], _ => none
  | (j, c) :: rest, depth =>
    if c = braceOpen then dyckMatch rest (depth + 1)
    else if depth - 1 = 0 then some (j + 1)
    else dyckMatch rest (depth - 1)

theorem shiftPos_nil : shiftPos [] = [] := rfl

theorem shiftPos_cons (p : Nat × Char) (l : List (Nat × Char)) :
    shiftPos (p :: l) = (p.1 + 1, p.2) :: shiftPos l := rfl

/-- Filtering for braces commutes with position shifting. -/
theorem filter_shiftPos (l : List (Nat × Char)) :
    (shiftPos l).filter (fun p => isBrace p.2)
      = shiftPos (l.filter (fun p => isBrace p.2)) := by
  induction l with
  | nil => rfl
  | cons p rest ih =>
    by_cases h : isBrace p.2 = true <;>
      simp [shiftPos_cons, List.filter_cons, h, ih]

/-- Depth matching on shifted positions shifts the result. -/
theorem dyckMatch_shiftPos (l : List (Nat × Char)) :
    ∀ d : Int, dyckMatch (shiftPos l) d = (dyckMatch l d).map (· + 1) := by
  induction l with
  | nil => intro d; rfl
  | cons p rest ih =>
    intro d
    obtain ⟨j, c⟩ := p
    rw [shiftPos_cons]
    show dyckMatch ((j + 1, c) :: shiftPos rest) d = _
    by_cases hc : c = braceOpen
    · rw [dyckMatch, if_pos hc, ih, dyckMatch, if_pos hc]
    · by_cases hd : d - 1 = 0
      · rw [dyckMatch, if_neg hc, if_pos hd, dyckMatch, if_neg hc, if_pos hd]
        rfl
      · rw [dyckMatch, if_neg hc, if_neg hd, ih, dyckMatch, if_neg hc, if_neg hd]

/-- Members of the effective brace list are braces. -/
theorem isBrace_of_mem_effBraces {s : List Char} {inStr esc : Bool}
    {p : Nat × Char} (h : p ∈ effBraces s inStr esc) : isBrace p.2 = true :=
  (List.mem_filter.1 h).2

theorem effBraces_cons_esc (c : Char) (cs : List Char) (inStr : Bool) :
    effBraces (c :: cs) inStr true = shiftPos (effBraces cs inStr false) := by
  simp [effBraces, effChars, filter_shiftPos]

theorem effBraces_cons_backslash (cs : List Char) :
    effBraces (backslashChar :: cs) true false
      = shiftPos (effBraces cs true true) := by
  simp [effBraces, effChars, filter_shiftPos]

theorem effBraces_cons_quote (cs : List Char) (inStr : Bool) :
    effBraces (quoteChar :: cs) inStr false
      = shiftPos (effBraces cs (!inStr) false) := by
  have hqb : ¬ (quoteChar = backslashChar ∧ inStr = true) := by
    rintro ⟨h, -⟩
    exact absurd h (by decide)
  simp [effBraces, effChars, hqb, filter_shiftPos]

theorem effBraces_cons_inStr (c : Char) (cs : List Char)
    (hbs : c ≠ backslashChar) (hq : c ≠ quoteChar) :
    effBraces (c :: cs) true false = shiftPos (effBraces cs true false) := by
  simp [effBraces, effChars, hbs, hq, filter_shiftPos]

theorem effBraces_cons_emit (c : Char) (cs : List Char) (hq : c ≠ quoteChar) :
    effBraces (c :: cs) false false
      = (if isBrace c = true then [(0, c)] else []) ++ shiftPos (effBraces cs false false) := by
  by_cases hb : isBrace c = true <;>
    simp [effBraces, effChars, hq, List.filter_cons, hb, filter_shiftPos]

end VcpkgFF

namespace VcpkgFF

/-- The scan of `remove_main_function` equals string-stripping followed by
pure depth matching: its result depends only on the braces lying outside
string literals.  The index argument `i` shifts the returned offset. -/
theorem scanBrace_eq_dyckMatch :
    ∀ (s : List Char) (inStr esc : Bool) (d : Int) (i : Nat),
      scanBrace s i d inStr esc
        = (dyckMatch (effBraces s inStr esc) d).map (· + i)
  | [], _, _, _, _ => rfl
  | c :: cs, inStr, esc, d, i => by
    have hmap : ∀ (o : Option Nat) (k : Nat),
        o.map (· + (k + 1)) = (o.map (· + 1)).map (· + k) := by
      intro o k
      cases o with
      | none => rfl
      | some a =>
        simp only [Option.map_some']
        exact congrArg some (by omega)
    by_cases hesc : esc = true
    · subst hesc
      rw [scanBrace, if_pos rfl, effBraces_cons_esc, dyckMatch_shiftPos,
        scanBrace_eq_dyckMatch cs inStr false d (i + 1)]
      exact hmap _ i
    · have hesc0 : esc = false := by
        cases esc
        · rfl
        · exact absurd rfl hesc
      subst hesc0
      by_cases hbs : c = backslashChar ∧ inStr = true
      · obtain ⟨rfl, hstr⟩ := hbs
        subst hstr
        rw [scanBrace, if_neg (by simp), if_pos ⟨rfl, rfl⟩,
          effBraces_cons_backslash, dyckMatch_shiftPos,
          scanBrace_eq_dyckMatch cs true true d (i + 1)]
        exact hmap _ i
      · by_cases hq : c = quoteChar
        · subst hq
          rw [scanBrace, if_neg (by simp), if_neg hbs, if_pos rfl,
            effBraces_cons_quote, dyckMatch_shiftPos,
            scanBrace_eq_dyckMatch cs (!inStr) false d (i + 1)]
          exact hmap _ i
        · by_cases ho : c = braceOpen ∧ inStr = false
          · obtain ⟨rfl, hstr⟩ := ho
            subst hstr
            rw [scanBrace, if_neg (by simp), if_neg hbs, if_neg hq,
              if_pos ⟨rfl, rfl⟩, effBraces_cons_emit braceOpen cs hq,
              if_pos (by decide)]
            show scanBrace cs (i + 1) (d + 1) false false
              = (dyckMatch ((0, braceOpen) :: shiftPos (effBraces cs false false)) d).map
                  (· + i)
            rw [dyckMatch, if_pos rfl, dyckMatch_shiftPos,
              scanBrace_eq_dyckMatch cs false false (d + 1) (i + 1)]
            exact hmap _ i
          · by_cases hc : c = braceClose ∧ inStr = false
            · obtain ⟨rfl, hstr⟩ := hc
              subst hstr
              rw [scanBrace, if_neg (by simp), if_neg hbs, if_neg hq, if_neg ho,
                if_pos ⟨rfl, rfl⟩, effBraces_cons_emit braceClose cs hq,
                if_pos (show isBrace braceClose = true by decide)]
              show (if d - 1 = 0 then some (i + 1)
                    else scanBrace cs (i + 1) (d - 1) false false)
                = (dyckMatch ((0, braceClose) :: shiftPos (effBraces cs false false)) d).map
                    (· + i)
              rw [dyckMatch, if_neg (show ¬ braceClose = braceOpen by decide)]
              by_cases hd : d - 1 = 0
              · rw [if_pos hd, if_pos hd]
                simp only [Option.map_some']
                exact congrArg some (by omega)
              · rw [if_neg hd, if_neg hd, dyckMatch_shiftPos,
                  scanBrace_eq_dyckMatch cs false false (d - 1) (i + 1)]
                exact hmap _ i
            · rw [scanBrace, if_neg (by simp), if_neg hbs, if_neg hq, if_neg ho,
                if_neg hc]
              cases hstr : inStr with
              | true =>
                have hcb : c ≠ backslashChar := fun h => hbs ⟨h, hstr⟩
                rw [effBraces_cons_inStr c cs hcb hq, dyckMatch_shiftPos,
                  scanBrace_eq_dyckMatch cs true false d (i + 1)]
                exact hmap _ i
              | false =>
                have hco : c ≠ braceOpen := fun h => ho ⟨h, hstr⟩
                have hcc : c ≠ braceClose := fun h => hc ⟨h, hstr⟩
                rw [effBraces_cons_emit c cs hq,
                  if_neg (by simp [isBrace, hco, hcc]), List.nil_append,
                  dyckMatch_shiftPos,
                  scanBrace_eq_dyckMatch cs false false d (i + 1)]
                exact hmap _ i

end VcpkgFF

namespace VcpkgFF

theorem braceSum_nil : braceSum [] = 0 := rfl

theorem braceSum_cons (j : Nat) (c : Char) (l : List (Nat × Char)) :
    braceSum ((j, c) :: l) = braceDir c + braceSum l := by
  simp [braceSum]

/-- Depth matching succeeds on any brace sequence along which the depth,
started strictly positive, eventually reaches zero or below; it stops at
the first index where the depth returns to zero, which is a closing brace,
and reports its recorded position (plus one). -/
theorem dyckMatch_first_zero :
    ∀ (B : List (Nat × Char)) (d : Int), 0 < d → d + braceSum B ≤ 0 →
      (∀ p ∈ B, isBrace p.2 = true) →
      ∃ k j, dyckMatch B d = some (j + 1)
        ∧ B.get? k = some (j, braceClose)
        ∧ d + braceSum (B.take (k + 1)) = 0
        ∧ ∀ m, m ≤ k → 0 < d + braceSum (B.take m)
  | [], d, hd, hsum, _ => by
    exfalso
    rw [braceSum_nil] at hsum
    omega
  | (j, c) :: rest, d, hd, hsum, hbr => by
    have hc := hbr (j, c) (by simp)
    rw [braceSum_cons] at hsum
    by_cases hopen : c = braceOpen
    · have hdir : braceDir c = 1 := by rw [braceDir, if_pos hopen]
      rw [hdir] at hsum
      obtain ⟨k, j', h1, h2, h3, h4⟩ :=
        dyckMatch_first_zero rest (d + 1) (by omega) (by omega)
          (fun p hp => hbr p (List.mem_cons_of_mem _ hp))
      refine ⟨k + 1, j', ?_, ?_, ?_, ?_⟩
      · rw [dyckMatch, if_pos hopen, h1]
      · simpa using h2
      · rw [List.take_succ_cons, braceSum_cons, hdir]
        omega
      · intro m hm
        cases m with
        | zero => simpa [braceSum_nil] using hd
        | succ m' =>
          rw [List.take_succ_cons, braceSum_cons, hdir]
          have h4' := h4 m' (by omega)
          omega
    · have hdir : braceDir c = -1 := by rw [braceDir, if_neg hopen]
      rw [hdir] at hsum
      have hcl : c = braceClose := by
        simp [isBrace, hopen] at hc
        exact hc
      by_cases hzero : d - 1 = 0
      · refine ⟨0, j, ?_, ?_, ?_, ?_⟩
        · rw [dyckMatch, if_neg hopen, if_pos hzero]
        · simp [hcl]
        · rw [List.take_succ_cons, List.take_zero, braceSum_cons, hdir, braceSum_nil]
          omega
        · intro m hm
          have hm0 : m = 0 := Nat.le_zero.1 hm
          subst hm0
          simpa [braceSum_nil] using hd
      · obtain ⟨k, j', h1, h2, h3, h4⟩ :=
          dyckMatch_first_zero rest (d - 1) (by omega) (by omega)
            (fun p hp => hbr p (List.mem_cons_of_mem _ hp))
        refine ⟨k + 1, j', ?_, ?_, ?_, ?_⟩
        · rw [dyckMatch, if_neg hopen, if_neg hzero, h1]
        · simpa using h2
        · rw [List.take_succ_cons, braceSum_cons, hdir]
          omega
        · intro m hm
          cases m with
          | zero => simpa [braceSum_nil] using hd
          | succ m' =>
            rw [List.take_succ_cons, braceSum_cons, hdir]
            have h4' := h4 m' (by omega)
            omega

end VcpkgFF

namespace VcpkgFF

/-- Claim C1: for every buffer whose braces (ignoring braces inside
double-quoted string literals, with a backslash-escaped quote not
terminating the string) are balanced after the `main` signature, the brace
scan inside `remove_main_function` — `scanBrace` started at the first
opening brace, in initial state — returns the offset one past the closing
brace matching that first opening brace.  `s` is the buffer suffix
starting at the opening brace found after the signature.  The matching
close is characterised over `effBraces s false false` (entry `0` is the
initial opening brace): it is entry `k + 1`, a closing brace at position
`j` of `s`, the effective-brace depth returns to zero exactly there
(`take (k + 2)` sums to zero) and not before (every shorter non-empty
prefix has positive sum).  Braces inside string literals do not occur in
`effBraces`, so the result is independent of them. -/
theorem scanBrace_finds_matching_close (s : List Char)
    (hhead : s.head? = some braceOpen)
    (hbal : braceSum (effBraces s false false) = 0) :
    ∃ k j, scanBrace s 0 0 false false = some (j + 1)
      ∧ (effBraces s false false).get? (k + 1) = some (j, braceClose)
      ∧ braceSum ((effBraces s false false).take (k + 2)) = 0
      ∧ ∀ m, 0 < m → m ≤ k + 1 → 0 < braceSum ((effBraces s false false).take m) := by
  obtain ⟨s', rfl⟩ : ∃ s', s = braceOpen :: s' := by
    cases s with
    | nil => simp at hhead
    | cons c cs =>
      have : c = braceOpen := by simpa using hhead
      exact ⟨cs, by rw [this]⟩
  have hdir : braceDir braceOpen = 1 := by rw [braceDir, if_pos rfl]
  have hemit : effBraces (braceOpen :: s') false false
      = (0, braceOpen) :: shiftPos (effBraces s' false false) := by
    rw [effBraces_cons_emit braceOpen s' (by decide),
      if_pos (show isBrace braceOpen = true by decide)]
    rfl
  have hbal' : (1 : Int) + braceSum (shiftPos (effBraces s' false false)) ≤ 0 := by
    rw [hemit, braceSum_cons, hdir] at hbal
    omega
  have hbr : ∀ p ∈ shiftPos (effBraces s' false false), isBrace p.2 = true := by
    intro p hp
    obtain ⟨q, hq, heq⟩ := List.mem_map.1 hp
    subst heq
    simpa using isBrace_of_mem_effBraces hq
  obtain ⟨k, jj, h1, h2, h3, h4⟩ :=
    dyckMatch_first_zero (shiftPos (effBraces s' false false)) 1 (by omega) hbal' hbr
  refine ⟨k, jj, ?_, ?_, ?_, ?_⟩
  · rw [scanBrace_eq_dyckMatch _ false false 0 0, hemit, dyckMatch, if_pos rfl]
    have h0 : (0 : Int) + 1 = 1 := by norm_num
    rw [h0, h1]
    simp
  · rw [hemit]
    simpa using h2
  · rw [hemit, List.take_succ_cons, braceSum_cons, hdir]
    omega
  · intro m hm0 hmk
    obtain ⟨m', rfl⟩ : ∃ m', m = m' + 1 := ⟨m - 1, by omega⟩
    rw [hemit, List.take_succ_cons, braceSum_cons, hdir]
    have := h4 m' (by omega)
    omega

end VcpkgFF

deriving instance DecidableEq for Except

namespace VcpkgFF

/-- Concrete buffer for the C1 witness: an opening brace, a string literal
containing unbalanced braces and an escaped quote, nested braces, the
matching close, and trailing text. -/
def c1Buf : List Char :=
  "\x7b a \"\x7d\x7d\\\"\x7d\" \x7b \x7b\x7d \x7d \x7d tail".toList

/-- Witness for claim C1 at a concrete buffer whose string literal holds
unbalanced braces and an escaped quote. -/
theorem scanBrace_finds_matching_close_witness :
    c1Buf.head? = some braceOpen
    ∧ braceSum (effBraces c1Buf false false) = 0
    ∧ ∃ k j, scanBrace c1Buf 0 0 false false = some (j + 1)
      ∧ (effBraces c1Buf false false).get? (k + 1) = some (j, braceClose)
      ∧ braceSum ((effBraces c1Buf false false).take (k + 2)) = 0
      ∧ ∀ m, 0 < m → m ≤ k + 1 → 0 < braceSum ((effBraces c1Buf false false).take m) :=
  ⟨by decide, by decide,
    scanBrace_finds_matching_close c1Buf (by decide) (by decide)⟩

/-- Claim C2 (amended): when the visibility-change target is absent the
replace is a no-op; when the `main` signature is absent, or no opening
brace follows it, or the scan finds no matching close before buffer end,
`remove_main_function` returns the text unchanged as `Ok` — a silent
no-op, not a named error; and when the inserted include is not yet present
and the insertion marker is absent, `add_napi_include` likewise returns
the text unchanged as `Ok`, not an error. -/
theorem patch_anchor_missing_noop :
    (∀ content : List Char, containsSub transcodePat content = false →
        visibility_transcode content = content)
    ∧ (∀ content : List Char, findSub mainSig content = none →
        remove_main_function content = .ok content)
    ∧ (∀ (content : List Char) (p : Nat), findSub mainSig content = some p →
        findChar braceOpen (content.drop p) = none →
        remove_main_function content = .ok content)
    ∧ (∀ (content : List Char) (p q : Nat), findSub mainSig content = some p →
        findChar braceOpen (content.drop p) = some q →
        scanBrace (content.drop (p + q)) 0 0 false false = none →
        remove_main_function content = .ok content)
    ∧ (∀ content : List Char, containsSub napiIncludeText content = false →
        findSub includeMarker content = none →
        add_napi_include content = .ok content) := by
  refine ⟨?_, ?_, ?_, ?_, ?_⟩
  · intro content h
    exact replaceAll_of_not_contains _ _ _ h
  · intro content h
    simp [remove_main_function, h]
  · intro content p h1 h2
    simp [remove_main_function, h1, h2]
  · intro content p q h1 h2 h3
    simp [remove_main_function, h1, h2, h3]
  · intro content h1 h2
    simp [add_napi_include, h1, h2]

/-- Counterexample to claim C2 as stated: on buffers missing the `main`
signature or the insertion marker (and on a buffer whose braces never
rebalance), `remove_main_function` and `add_napi_include` return `Ok`
with the text unchanged — no "anchor not found" / "unbalanced structure" /
"marker not found" error is ever produced. -/
theorem patch_anchor_missing_no_named_error :
    findSub mainSig ("abc".toList) = none
    ∧ remove_main_function ("abc".toList) = .ok ("abc".toList)
    ∧ remove_main_function ("int main(int argc, char **argv) \x7b \x7b".toList)
        = .ok ("int main(int argc, char **argv) \x7b \x7b".toList)
    ∧ containsSub includeMarker ("abc".toList) = false
    ∧ add_napi_include ("abc".toList) = .ok ("abc".toList) := by
  exact ⟨by decide, by decide, by decide, by decide, by decide⟩

/-- Witness for the amended claim C2, instantiating each no-op case at a
concrete buffer. -/
theorem patch_anchor_missing_noop_witness :
    visibility_transcode ("abc".toList) = "abc".toList
    ∧ remove_main_function ("xyz".toList) = .ok ("xyz".toList)
    ∧ remove_main_function ("int main(int argc, char **argv)".toList)
        = .ok ("int main(int argc, char **argv)".toList)
    ∧ remove_main_function ("int main(int argc, char **argv) \x7b".toList)
        = .ok ("int main(int argc, char **argv) \x7b".toList)
    ∧ add_napi_include ("xyz".toList) = .ok ("xyz".toList) :=
  ⟨patch_anchor_missing_noop.1 _ (by decide),
   patch_anchor_missing_noop.2.1 _ (by decide),
   patch_anchor_missing_noop.2.2.1 _ 0 (by decide) (by decide),
   patch_anchor_missing_noop.2.2.2.1 _ 0 32 (by decide) (by decide) (by decide),
   patch_anchor_missing_noop.2.2.2.2 _ (by decide) (by decide)⟩

end VcpkgFF

namespace VcpkgFF

/-- Claim C3 (amended): the append-insertion of the ffmpeg_run code and
the marker insertion of the node_api include are idempotent on every
input.  The visibility change and the main-function removal are idempotent
on every input whose once-patched output no longer contains the target
pattern / signature (which holds for the intended `ffmpeg.c` input), but
not on every input: see the counterexample, where the replaced text
recreates the search pattern. -/
theorem patch_idempotence :
    (∀ content r : List Char, add_ffmpeg_run_function content = .ok r →
        add_ffmpeg_run_function r = .ok r)
    ∧ (∀ content r : List Char, add_napi_include content = .ok r →
        add_napi_include r = .ok r)
    ∧ (∀ content : List Char,
        containsSub transcodePat (visibility_transcode content) = false →
        visibility_transcode (visibility_transcode content)
          = visibility_transcode content)
    ∧ (∀ content r : List Char, remove_main_function content = .ok r →
        findSub mainSig r = none →
        remove_main_function r = .ok r) := by
  refine ⟨?_, ?_, ?_, ?_⟩
  · intro content r h
    by_cases hg : containsSub ffmpegRunGuard content = true
    · rw [add_ffmpeg_run_function, if_pos hg] at h
      obtain rfl : content = r := by simpa using h
      rw [add_ffmpeg_run_function, if_pos hg]
    · rw [add_ffmpeg_run_function, if_neg hg] at h
      obtain rfl : content ++ runFunctionText = r := by simpa using h
      have hr : containsSub ffmpegRunGuard (content ++ runFunctionText) = true :=
        containsSub_append_right content (by decide)
      rw [add_ffmpeg_run_function, if_pos hr]
  · intro content r h
    by_cases hg : containsSub napiIncludeText content = true
    · rw [add_napi_include, if_pos hg] at h
      obtain rfl : content = r := by simpa using h
      rw [add_napi_include, if_pos hg]
    · rw [add_napi_include, if_neg hg] at h
      cases hm : findSub includeMarker content with
      | none =>
        rw [hm] at h
        obtain rfl : content = r := by simpa using h
        rw [add_napi_include, if_neg hg, hm]
      | some pos =>
        rw [hm] at h
        obtain rfl : content.take (pos + includeMarker.length) ++ napiInsertText
            ++ content.drop (pos + includeMarker.length) = r := by simpa using h
        have hr : containsSub napiIncludeText
            (content.take (pos + includeMarker.length) ++ napiInsertText
              ++ content.drop (pos + includeMarker.length)) = true :=
          containsSub_append_left _
            (containsSub_append_right _ (by decide))
        rw [add_napi_include, if_pos hr]
  · intro content h
    exact replaceAll_of_not_contains _ _ _ h
  · intro content r _ hnone
    simp [remove_main_function, hnone]

/-- Counterexample to claim C3 as stated: on a buffer where the replaced
text recreates the search pattern, the visibility-change operation is not
idempotent — a second application changes the buffer again. -/
theorem patch_idempotence_counterexample :
    visibility_transcode (visibility_transcode
        ("static static int transcode(Scheduler *sch)".toList))
      ≠ visibility_transcode
          ("static static int transcode(Scheduler *sch)".toList) := by
  decide

/-- Witness for the amended claim C3, instantiating each idempotence case
at a concrete buffer. -/
theorem patch_idempotence_witness :
    add_ffmpeg_run_function ("napi_value ffmpeg_run".toList)
        = .ok ("napi_value ffmpeg_run".toList)
    ∧ add_napi_include ("#include <node_api.h>".toList)
        = .ok ("#include <node_api.h>".toList)
    ∧ visibility_transcode (visibility_transcode ("abc".toList))
        = visibility_transcode ("abc".toList)
    ∧ remove_main_function ("abc".toList) = .ok ("abc".toList) :=
  ⟨patch_idempotence.1 ("napi_value ffmpeg_run".toList)
      ("napi_value ffmpeg_run".toList) (by decide),
   patch_idempotence.2.1 ("#include <node_api.h>".toList)
      ("#include <node_api.h>".toList) (by decide),
   patch_idempotence.2.2.1 ("abc".toList) (by decide),
   patch_idempotence.2.2.2 ("abc".toList) ("abc".toList) (by decide) (by decide)⟩

/-- Claim C8: for every buffer containing the `static int transcode`
signature exactly once — the occurrence sits at offset `pre.length` and
no other offset carries one — the visibility-change operation rewrites
that occurrence to the unqualified signature and every other character of
the buffer is unchanged (prefix and suffix are kept verbatim). -/
theorem visibility_change_single_occurrence (content pre suf : List Char)
    (hsplit : content = pre ++ transcodePat ++ suf)
    (huniq : ∀ i, transcodePat <+: content.drop i → i = pre.length) :
    visibility_transcode content = pre ++ transcodeRep ++ suf := by
  subst hsplit
  exact replaceAll_unique transcodePat transcodeRep pre suf (by decide) huniq

/-- Witness for claim C8 on a concrete 42-character buffer with a single
occurrence of the signature. -/
theorem visibility_change_single_occurrence_witness :
    visibility_transcode ("AA static int transcode(Scheduler *sch) BB".toList)
      = ("AA ".toList) ++ transcodeRep ++ (" BB".toList) :=
  visibility_change_single_occurrence
    ("AA static int transcode(Scheduler *sch) BB".toList)
    ("AA ".toList) (" BB".toList) (by decide)
    (fun i hi =>
      (by decide : ∀ i, i < 42 →
          transcodePat <+: (("AA static int transcode(Scheduler *sch) BB".toList).drop i)
          → i = 3)
        i (lt_length_of_prefix_drop (by decide) hi) hi)

end VcpkgFF

namespace VcpkgFF

/-- Concrete buffer for claim C9: the text before the `main` signature
ends in whitespace and the text after the function's closing brace starts
with whitespace. -/
def c9Buf : List Char :=
  "x \nint main(int argc, char **argv)\n\x7b return 0; \x7d \ny".toList

/-- Claim C9: a successful main-function removal does not merely replace
the function span `[p, p + q + e)` by the marker comment: the result is
`trimEnd` of the text before the signature, then the marker, then
`trimStart` of the text after the span, so whitespace characters adjacent
to the removed span are also dropped.  The first conjunct characterises
every successful removal; the second shows a concrete buffer on which the
result differs from the plain splice `take ++ marker ++ drop`. -/
theorem remove_main_trims_adjacent :
    (∀ (content : List Char) (p q e : Nat),
        findSub mainSig content = some p →
        findChar braceOpen (content.drop p) = some q →
        scanBrace (content.drop (p + q)) 0 0 false false = some e →
        remove_main_function content
          = .ok (trimEnd (content.take p) ++ removalMarker
                  ++ trimStart (content.drop (p + q + e))))
    ∧ remove_main_function c9Buf
        ≠ .ok (c9Buf.take 3 ++ removalMarker ++ c9Buf.drop 48) := by
  constructor
  · intro content p q e h1 h2 h3
    simp [remove_main_function, h1, h2, h3]
  · decide

/-- Witness for claim C9: the spans on `c9Buf` and the trimmed result. -/
theorem remove_main_trims_adjacent_witness :
    findSub mainSig c9Buf = some 3
    ∧ findChar braceOpen (c9Buf.drop 3) = some 32
    ∧ scanBrace (c9Buf.drop 35) 0 0 false false = some 13
    ∧ remove_main_function c9Buf
        = .ok (trimEnd (c9Buf.take 3) ++ removalMarker
                ++ trimStart (c9Buf.drop 48)) :=
  ⟨by decide, by decide, by decide,
    remove_main_trims_adjacent.1 c9Buf 3 32 13 (by decide) (by decide) (by decide)⟩

end VcpkgFF

namespace VcpkgFF

/-! ### Dependency orchestrator (`src/vcpkg_manager.rs`)

External effects (subprocess invocations, filesystem operations) are
modelled by oracles: environment records carry the outcome of each
fallible external operation, and the functions return, besides their
Rust result, the trace information the claims speak about (invocation
lists, filesystem state). -/

/-- Outcome of one `git clone` invocation: the process succeeded, ran and
failed (with its captured standard error), or could not be run at all
(`Command::output()` returned `Err`). -/
inductive CloneOutcome
  | success
  | failed (stderr : List Char)
  | cmdError (msg : List Char)
deriving DecidableEq

/-- The error recorded in `last_error` for an outcome, per
`git_clone_with_retry` (`vcpkg_manager.rs` lines 101-116). -/
def outcomeErr : CloneOutcome → Option (List Char)
  | .success => none
  | .failed stderr => some (("git clone failed: ".toList) ++ stderr)
  | .cmdError m => some (("git command error: ".toList) ++ m)

/-- The backoff performed before a clone attempt (`vcpkg_manager.rs` lines
81-85): `attempt * 2` seconds when `attempt > 1`, and no wait before the
first attempt. -/
def cloneDelay (attempt : Nat) : Nat := if attempt > 1 then attempt * 2 else 0

/-- The error message of `git_clone_with_retry` when every attempt failed
(`vcpkg_manager.rs` line 119). -/
def cloneFinalMsg (maxRetries : Nat) (lastErr : Option (List Char)) : List Char :=
  ("所有 ".toList) ++ (Nat.repr maxRetries).toList
    ++ (" 次尝试均失败。最后错误: ".toList)
    ++ lastErr.getD ("未知错误".toList)

/-- The attempt loop of `VcpkgManager::git_clone_with_retry`
(`vcpkg_manager.rs` lines 71-120).  `o` maps an attempt number to the
outcome of the `git clone` invocation made on that attempt; the returned
list records one `(attempt, delaySeconds)` entry per invocation, in
order.  `fuel` counts the attempts remaining (the Rust loop runs
`attempt` from 1 to `maxRetries`). -/
def gitCloneGo (o : Nat → CloneOutcome) (maxRetries : Nat) :
    Nat → Nat → Option (List Char) → Except (List Char) Unit × List (Nat × Nat)
  | 0, _, lastErr => (.error (cloneFinalMsg maxRetries lastErr), [])
  | fuel + 1, attempt, lastErr =>
    match o attempt with
    | .success => (.ok (), [(attempt, cloneDelay attempt)])
    | out =>
      let r := gitCloneGo o maxRetries fuel (attempt + 1) (outcomeErr out)
      (r.1, (attempt, cloneDelay attempt) :: r.2)

/-- `VcpkgManager::git_clone_with_retry` for one mirror URL, abstracted
over the clone outcomes. -/
def git_clone_with_retry (o : Nat → CloneOutcome) (maxRetries : Nat) :
    Except (List Char) Unit × List (Nat × Nat) :=
  gitCloneGo o maxRetries maxRetries 1 none

/-- The three mirror URLs tried by `install_vcpkg`
(`vcpkg_manager.rs` lines 144-148). -/
def mirrorUrls : List (List Char) :=
  [("https://github.com/Microsoft/vcpkg.git".toList),
   ("https://gitee.com/mirrors/vcpkg.git".toList),
   ("https://github.com.cnpmjs.org/Microsoft/vcpkg.git".toList)]

/-- The mirror-fallback loop of `install_vcpkg` (`vcpkg_manager.rs` lines
150-179): try `git_clone_with_retry(url, 3)` for each mirror in order,
recording the last error; on total failure the final error wraps the last
mirror's error.  `clone m a` is the outcome of attempt `a` on the mirror
with index `m`; events are `(mirrorIndex, (attempt, delaySeconds))`. -/
def tryMirrors (clone : Nat → Nat → CloneOutcome) :
    List Nat → Option (List Char)
      → Except (List Char) Unit × List (Nat × Nat × Nat)
  | [], lastErr =>
    (.error (("所有镜像源均失败。最后错误: ".toList)
        ++ lastErr.getD ("未知错误".toList)), [])
  | m :: ms, lastErr =>
    let r := git_clone_with_retry (clone m) 3
    let evs := r.2.map (fun ev => (m, ev))
    match r.1 with
    | .ok _ => (.ok (), evs)
    | .error e =>
      let rest := tryMirrors clone ms (some e)
      (rest.1, evs ++ rest.2)

/-- Errors of the bootstrap stage: a named message built by the code, or
an opaque propagated I/O error (a `?` on an external operation). -/
inductive BootErr
  | named (msg : List Char)
  | io
deriving DecidableEq

/-- External-world outcomes consumed by `install_vcpkg`. -/
structure BootstrapEnv where
  /-- `is_installed()`: the vcpkg executable already exists. -/
  installed : Bool
  /-- `check_git`: `none` when `git --version` could not run, otherwise
  the exit-status success flag. -/
  gitVersion : Option Bool
  /-- `vcpkg_root.exists()` before cloning (line 134). -/
  rootExists : Bool
  /-- `fs::remove_dir_all(&vcpkg_root)` outcome (line 136). -/
  cleanRootOk : Bool
  /-- `fs::create_dir_all(parent)` outcome (line 140). -/
  createParentOk : Bool
  /-- Outcome of the clone attempt `a` on mirror index `m`. -/
  clone : Nat → Nat → CloneOutcome
  /-- Bootstrap script status: `none` when it could not run. -/
  bootstrapStatus : Option Bool
  /-- `vcpkg_exe.exists()` after bootstrap (line 207). -/
  exeExistsAfter : Bool

/-- `VcpkgManager::install_vcpkg` (`vcpkg_manager.rs` lines 123-213),
returning its result and the list of clone invocations performed. -/
def install_vcpkg (e : BootstrapEnv) :
    Except BootErr Unit × List (Nat × Nat × Nat) :=
  if e.installed = true then (.ok (), [])
  else
    match e.gitVersion with
    | none => (.error .io, [])
    | some false =>
      (.error (.named ("git is not installed or not in PATH, please install git first".toList)), [])
    | some true =>
      if e.rootExists = true ∧ e.cleanRootOk = false then (.error .io, [])
      else if e.createParentOk = false then (.error .io, [])
      else
        let r := tryMirrors e.clone [0, 1, 2] none
        match r.1 with
        | .error msg => (.error (.named msg), r.2)
        | .ok _ =>
          match e.bootstrapStatus with
          | none => (.error .io, r.2)
          | some false => (.error (.named ("vcpkg bootstrap failed".toList)), r.2)
          | some true =>
            if e.exeExistsAfter = false then
              (.error (.named ("vcpkg executable was not generated, bootstrap may have failed".toList)), r.2)
            else (.ok (), r.2)

end VcpkgFF

namespace VcpkgFF

/-- One failing step of the retry loop. -/
theorem gitCloneGo_fail_step (o : Nat → CloneOutcome) (maxR fuel attempt : Nat)
    (lastErr : Option (List Char)) (h : o attempt ≠ .success) :
    gitCloneGo o maxR (fuel + 1) attempt lastErr
      = ((gitCloneGo o maxR fuel (attempt + 1) (outcomeErr (o attempt))).1,
         (attempt, cloneDelay attempt)
           :: (gitCloneGo o maxR fuel (attempt + 1) (outcomeErr (o attempt))).2) := by
  cases ho : o attempt with
  | success => exact absurd ho h
  | failed stderr => rw [gitCloneGo, ho]
  | cmdError m => rw [gitCloneGo, ho]

/-- When all three attempts on a mirror fail, the retry loop makes exactly
three invocations, with delays 0, 4, 6 seconds, and reports the last
attempt's underlying error. -/
theorem git_clone_with_retry_all_fail (o : Nat → CloneOutcome)
    (h : ∀ a, o a ≠ .success) :
    git_clone_with_retry o 3
      = (.error (cloneFinalMsg 3 (outcomeErr (o 3))), [(1, 0), (2, 4), (3, 6)]) := by
  rw [git_clone_with_retry]
  rw [gitCloneGo_fail_step o 3 2 1 none (h 1),
    gitCloneGo_fail_step o 3 1 2 _ (h 2),
    gitCloneGo_fail_step o 3 0 3 _ (h 3)]
  rw [gitCloneGo]
  simp [cloneDelay]

theorem tryMirrors_nil (clone : Nat → Nat → CloneOutcome)
    (lastErr : Option (List Char)) :
    tryMirrors clone [] lastErr
      = (.error (("所有镜像源均失败。最后错误: ".toList)
          ++ lastErr.getD ("未知错误".toList)), []) := rfl

/-- One failing mirror of the fallback loop. -/
theorem tryMirrors_cons_fail (clone : Nat → Nat → CloneOutcome) (m : Nat)
    (ms : List Nat) (lastErr : Option (List Char)) (e : List Char)
    (evs : List (Nat × Nat))
    (hr : git_clone_with_retry (clone m) 3 = (.error e, evs)) :
    tryMirrors clone (m :: ms) lastErr
      = ((tryMirrors clone ms (some e)).1,
         evs.map (fun ev => (m, ev)) ++ (tryMirrors clone ms (some e)).2) := by
  simp [tryMirrors, hr]

/-- When every attempt on every mirror fails, the mirror loop over the
three mirrors performs nine invocations (attempts 1-3 on mirrors 0-2,
delays 0, 4, 6 on each mirror) and fails with the last mirror's error. -/
theorem tryMirrors_all_fail (clone : Nat → Nat → CloneOutcome)
    (h : ∀ m a, clone m a ≠ .success) :
    tryMirrors clone [0, 1, 2] none
      = (.error (("所有镜像源均失败。最后错误: ".toList)
            ++ cloneFinalMsg 3 (outcomeErr (clone 2 3))),
         [(0, 1, 0), (0, 2, 4), (0, 3, 6),
          (1, 1, 0), (1, 2, 4), (1, 3, 6),
          (2, 1, 0), (2, 2, 4), (2, 3, 6)]) := by
  rw [tryMirrors_cons_fail clone 0 [1, 2] none _ _
      (git_clone_with_retry_all_fail (clone 0) (h 0)),
    tryMirrors_cons_fail clone 1 [2] _ _ _
      (git_clone_with_retry_all_fail (clone 1) (h 1)),
    tryMirrors_cons_fail clone 2 [] _ _ _
      (git_clone_with_retry_all_fail (clone 2) (h 2)),
    tryMirrors_nil]
  simp

end VcpkgFF

namespace VcpkgFF

theorem gitCloneGo_success_step (o : Nat → CloneOutcome)
    (maxR fuel attempt : Nat) (lastErr : Option (List Char))
    (h : o attempt = .success) :
    gitCloneGo o maxR (fuel + 1) attempt lastErr
      = (.ok (), [(attempt, cloneDelay attempt)]) := by
  rw [gitCloneGo, h]

/-- Claim C5 (amended): when `install_vcpkg` runs its clone stage (tool
absent, git available, pre-clone cleanup succeeding) and every clone
attempt on every mirror fails, it performs exactly 3 × 3 = 9 clone
invocations and fails with the last underlying error — the error of
attempt 3 on mirror 2, wrapped in the retry-exhaustion and mirror-failure
messages.  The delay before a mirror's first attempt is 0 seconds (not
1 × base) and `attempt × 2` seconds before attempts 2 and 3; delays are
non-decreasing within each mirror's attempts (last conjunct, for every
outcome oracle) but reset to zero at each mirror change. -/
theorem bootstrap_retry_exhaustion (e : BootstrapEnv)
    (hinst : e.installed = false) (hgit : e.gitVersion = some true)
    (hclean : ¬ (e.rootExists = true ∧ e.cleanRootOk = false))
    (hparent : e.createParentOk = true)
    (hfail : ∀ m a, e.clone m a ≠ .success) :
    (install_vcpkg e).2.length = 9
    ∧ (install_vcpkg e).2
        = [(0, 1, 0), (0, 2, 4), (0, 3, 6),
           (1, 1, 0), (1, 2, 4), (1, 3, 6),
           (2, 1, 0), (2, 2, 4), (2, 3, 6)]
    ∧ (install_vcpkg e).1
        = .error (.named (("所有镜像源均失败。最后错误: ".toList)
            ++ cloneFinalMsg 3 (outcomeErr (e.clone 2 3))))
    ∧ ∀ o : Nat → CloneOutcome,
        List.Chain' (· ≤ ·)
          ((git_clone_with_retry o 3).2.map (fun ev => ev.2)) := by
  have hinstall : install_vcpkg e
      = (.error (.named (("所有镜像源均失败。最后错误: ".toList)
            ++ cloneFinalMsg 3 (outcomeErr (e.clone 2 3)))),
         [(0, 1, 0), (0, 2, 4), (0, 3, 6),
          (1, 1, 0), (1, 2, 4), (1, 3, 6),
          (2, 1, 0), (2, 2, 4), (2, 3, 6)]) := by
    simp [install_vcpkg, hinst, hgit, hclean, hparent,
      tryMirrors_all_fail e.clone hfail]
  refine ⟨by rw [hinstall]; rfl, by rw [hinstall], by rw [hinstall], ?_⟩
  intro o
  rw [git_clone_with_retry]
  by_cases h1 : o 1 = .success
  · rw [gitCloneGo_success_step o 3 2 1 none h1]
    simp
  · rw [gitCloneGo_fail_step o 3 2 1 none h1]
    by_cases h2 : o 2 = .success
    · rw [gitCloneGo_success_step o 3 1 2 _ h2]
      simp [cloneDelay, List.chain'_cons]
    · rw [gitCloneGo_fail_step o 3 1 2 _ h2]
      by_cases h3 : o 3 = .success
      · rw [gitCloneGo_success_step o 3 0 3 _ h3]
        simp [cloneDelay, List.chain'_cons]
      · rw [gitCloneGo_fail_step o 3 0 3 _ h3, gitCloneGo]
        simp [cloneDelay, List.chain'_cons]

/-- Environment for the C5 concrete checks: tool absent, git available,
every clone attempt failing. -/
def c5Env : BootstrapEnv :=
  { installed := false, gitVersion := some true, rootExists := false,
    cleanRootOk := true, createParentOk := true,
    clone := fun _ _ => .failed ("x".toList),
    bootstrapStatus := some true, exeExistsAfter := true }

/-- Counterexample to claim C5 as stated: with every clone failing, the
nine backoff delays are 0, 4, 6, 0, 4, 6, 0, 4, 6 seconds — they are not
non-decreasing across attempts, and the delay before an attempt does not
equal `attempt × base_backoff` (each mirror's first attempt waits 0
seconds). -/
theorem bootstrap_retry_counterexample :
    ((install_vcpkg c5Env).2.map (fun ev => ev.2.2)
        = [0, 4, 6, 0, 4, 6, 0, 4, 6])
    ∧ ¬ List.Chain' (· ≤ ·) ((install_vcpkg c5Env).2.map (fun ev => ev.2.2))
    ∧ ¬ (∀ ev ∈ (install_vcpkg c5Env).2, ev.2.2 = ev.2.1 * 2) := by
  have hev : (install_vcpkg c5Env).2
      = [(0, 1, 0), (0, 2, 4), (0, 3, 6), (1, 1, 0), (1, 2, 4), (1, 3, 6),
         (2, 1, 0), (2, 2, 4), (2, 3, 6)] := by decide
  refine ⟨by rw [hev]; rfl, ?_, ?_⟩
  · rw [hev]
    simp [List.chain'_cons]
  · rw [hev]
    decide

/-- Witness for the amended claim C5 at the concrete all-failing
environment. -/
theorem bootstrap_retry_exhaustion_witness :
    c5Env.installed = false
    ∧ (∀ m a, c5Env.clone m a ≠ .success)
    ∧ (install_vcpkg c5Env).2.length = 9
    ∧ (install_vcpkg c5Env).1
        = .error (.named (("所有镜像源均失败。最后错误: ".toList)
            ++ cloneFinalMsg 3 (outcomeErr (c5Env.clone 2 3)))) :=
  have hfail : ∀ m a, c5Env.clone m a ≠ .success := fun m a h => by simp [c5Env] at h
  have h := bootstrap_retry_exhaustion c5Env rfl rfl (by decide) rfl hfail
  ⟨rfl, hfail, h.1, h.2.2.1⟩

end VcpkgFF

namespace VcpkgFF

/-- An entry at the fixed output path `output/ffmpeg`: a non-directory
entry, or a directory whose (abstract) contents are identified by a
natural number. -/
inductive FsEntry
  | file (id : Nat)
  | dir (id : Nat)
deriving DecidableEq

/-- The filesystem state touched by `extract_ffmpeg`: the entry at the
output path `output/ffmpeg` (if any) and whether the staging directory
`output/.ffmpeg_temp` exists. -/
structure ExtractState where
  target : Option FsEntry
  temp : Bool
deriving DecidableEq

/-- Outcomes of the external operations performed by `extract_ffmpeg`
(`vcpkg_manager.rs` lines 365-429), one field per fallible call, in
source order. -/
structure ExtractEnv where
  /-- `find_ffmpeg_archive()`: the located archive, if any. -/
  archive : Option Nat
  /-- `fs::remove_dir_all(&temp_dir)` on a stale staging dir (line 385). -/
  removeStaleTempOk : Bool
  /-- `fs::create_dir_all(&temp_dir)` (line 387). -/
  createTempOk : Bool
  /-- `File::open(&archive_path)` (line 389). -/
  openOk : Bool
  /-- `archive.unpack(&temp_dir)` (line 393). -/
  unpackOk : Bool
  /-- The first directory entry found in the staging dir after unpacking
  (its contents id), if any (lines 395-405). -/
  topDir : Option Nat
  /-- `fs::remove_dir_all(&temp_dir)` when no top dir was found (line 410). -/
  removeTempNoTopOk : Bool
  /-- `fs::remove_dir_all(&target_dir)` on a pre-existing entry (line 418). -/
  removeTargetOk : Bool
  /-- `fs::rename(&extracted_top_dir, &target_dir)` (line 421). -/
  renameOk : Bool
  /-- Final `fs::remove_dir_all(&temp_dir)` (line 424). -/
  removeTempFinalOk : Bool
deriving DecidableEq

/-- Errors of the extraction stage: a named message built by the code, or
an opaque propagated I/O error (a `?` on a filesystem/archive call). -/
inductive ExtractErr
  | named (msg : List Char)
  | io
deriving DecidableEq

/-- `VcpkgManager::is_ffmpeg_extracted` (`vcpkg_manager.rs` lines
322-331): the extracted tree is present when the output path exists and
is a directory. -/
def is_ffmpeg_extracted (s : ExtractState) : Option Nat :=
  match s.target with
  | some (.dir id) => some id
  | _ => none

/-- `VcpkgManager::extract_ffmpeg` (`vcpkg_manager.rs` lines 365-429) over
the filesystem model: returns the Rust result together with the final
filesystem state. -/
def extract_ffmpeg (e : ExtractEnv) (s : ExtractState) :
    Except ExtractErr Unit × ExtractState :=
  match is_ffmpeg_extracted s with
  | some _ => (.ok (), s)
  | none =>
    match e.archive with
    | none =>
      (.error (.named ("ffmpeg tar.gz file not found, please install ffmpeg package first".toList)), s)
    | some _ =>
      if s.temp = true ∧ e.removeStaleTempOk = false then (.error .io, s)
      else
        let s1 : ExtractState := { s with temp := false }
        if e.createTempOk = false then (.error .io, s1)
        else
          let s2 : ExtractState := { s1 with temp := true }
          if e.openOk = false then (.error .io, s2)
          else if e.unpackOk = false then (.error .io, s2)
          else
            match e.topDir with
            | none =>
              if e.removeTempNoTopOk = true then
                (.error (.named ("Top-level directory not found after extraction".toList)),
                 { s2 with temp := false })
              else (.error .io, s2)
            | some c =>
              if s2.target ≠ none ∧ e.removeTargetOk = false then (.error .io, s2)
              else
                let s3 : ExtractState := { s2 with target := none }
                if e.renameOk = false then (.error .io, s3)
                else
                  let s4 : ExtractState := { s3 with target := some (.dir c) }
                  if e.removeTempFinalOk = true then (.ok (), { s4 with temp := false })
                  else (.error .io, s4)

end VcpkgFF

namespace VcpkgFF

/-- Claim C6 (amended): past the precondition check, the staging directory
is removed before returning on the success path (first conjunct: whenever
`extract_ffmpeg` returns `Ok` after a real extraction, the final state has
no staging directory) and on the missing-top-level-directory path (second
conjunct).  It is not removed when opening or unpacking the archive fails
— those errors propagate with `?` and leave the staging directory behind
(see the counterexample); it is instead removed at the start of the next
invocation. -/
theorem extract_staging_cleanup :
    (∀ (e : ExtractEnv) (s : ExtractState),
        is_ffmpeg_extracted s = none →
        (extract_ffmpeg e s).1 = .ok () →
        (extract_ffmpeg e s).2.temp = false)
    ∧ (∀ (e : ExtractEnv) (s : ExtractState),
        is_ffmpeg_extracted s = none →
        e.archive ≠ none →
        (s.temp = true → e.removeStaleTempOk = true) →
        e.createTempOk = true → e.openOk = true → e.unpackOk = true →
        e.topDir = none → e.removeTempNoTopOk = true →
        (extract_ffmpeg e s).2.temp = false) := by
  constructor
  · intro e s hpre hok
    rcases hE : extract_ffmpeg e s with ⟨r, s2⟩
    rw [hE] at hok
    replace hok : r = .ok () := hok
    subst hok
    show s2.temp = false
    simp only [extract_ffmpeg, hpre] at hE
    split at hE
    · simp at hE
    · split at hE <;> try simp at hE
      split at hE <;> try simp at hE
      split at hE <;> try simp at hE
      split at hE <;> try simp at hE
      split at hE
      · split at hE <;> simp at hE
      · split at hE <;> try simp at hE
        split at hE <;> try simp at hE
        split at hE
        · simp at hE
          rw [← hE]
        · simp at hE
  · intro e s hpre harch hstale hcreate hopen hunpack htop hnotop
    obtain ⟨a, ha⟩ : ∃ a, e.archive = some a := by
      cases harchv : e.archive with
      | none => exact absurd harchv harch
      | some a => exact ⟨a, rfl⟩
    have h1 : ¬ (s.temp = true ∧ e.removeStaleTempOk = false) := by
      rintro ⟨ht, hr⟩
      rw [hstale ht] at hr
      cases hr
    simp [extract_ffmpeg, hpre, ha, h1, hcreate, hopen, hunpack, htop, hnotop]

/-- Environment for the C6 counterexample: archive present, staging
created, but unpacking fails. -/
def c6EnvUnpackFail : ExtractEnv :=
  ⟨some 0, true, true, true, false, some 1, true, true, true, true⟩

/-- Counterexample to claim C6 as stated: on the unpack-failure path —
which is past the precondition check (no extracted tree, archive found) —
`extract_ffmpeg` returns with the staging directory still present. -/
theorem extract_staging_left_on_unpack_failure :
    is_ffmpeg_extracted (⟨none, false⟩ : ExtractState) = none
    ∧ c6EnvUnpackFail.archive = some 0
    ∧ c6EnvUnpackFail.unpackOk = false
    ∧ (extract_ffmpeg c6EnvUnpackFail ⟨none, false⟩).1 = .error .io
    ∧ (extract_ffmpeg c6EnvUnpackFail ⟨none, false⟩).2.temp = true := by
  decide

/-- Environment for the C6 witness, success path. -/
def c6EnvOk : ExtractEnv :=
  ⟨some 0, true, true, true, true, some 7, true, true, true, true⟩

/-- Environment for the C6 witness, missing-top-level-directory path. -/
def c6EnvNoTop : ExtractEnv :=
  ⟨some 0, true, true, true, true, none, true, true, true, true⟩

/-- Witness for the amended claim C6: staging removed on the success path
and on the missing-top-level-directory path, at concrete environments. -/
theorem extract_staging_cleanup_witness :
    (extract_ffmpeg c6EnvOk ⟨none, false⟩).2.temp = false
    ∧ (extract_ffmpeg c6EnvNoTop ⟨none, false⟩).2.temp = false :=
  ⟨extract_staging_cleanup.1 c6EnvOk ⟨none, false⟩ rfl (by decide),
   extract_staging_cleanup.2 c6EnvNoTop ⟨none, false⟩ rfl (by decide)
     (fun _ => rfl) rfl rfl rfl rfl rfl⟩

/-- Claim C7 (amended): when no directory pre-exists at the output path
(the entry there is absent or a non-directory), the archive is found and
every step succeeds with a single top-level directory `c`, extraction
removes any pre-existing entry at the output path and places the top-level
directory's contents there, cleaning the staging directory.  A
pre-existing directory, however, is kept: the precondition check then
skips extraction entirely (see the counterexample). -/
theorem extract_places_top_dir (e : ExtractEnv) (s : ExtractState) (c : Nat)
    (hpre : is_ffmpeg_extracted s = none)
    (harch : e.archive ≠ none)
    (hstale : s.temp = true → e.removeStaleTempOk = true)
    (hcreate : e.createTempOk = true) (hopen : e.openOk = true)
    (hunpack : e.unpackOk = true) (htop : e.topDir = some c)
    (htarget : s.target ≠ none → e.removeTargetOk = true)
    (hrename : e.renameOk = true) (hfinal : e.removeTempFinalOk = true) :
    extract_ffmpeg e s = (.ok (), { target := some (.dir c), temp := false }) := by
  obtain ⟨a, ha⟩ : ∃ a, e.archive = some a := by
    cases harchv : e.archive with
    | none => exact absurd harchv harch
    | some a => exact ⟨a, rfl⟩
  have h1 : ¬ (s.temp = true ∧ e.removeStaleTempOk = false) := by
    rintro ⟨ht, hr⟩
    rw [hstale ht] at hr
    cases hr
  have h2 : ¬ (s.target ≠ none ∧ e.removeTargetOk = false) := by
    rintro ⟨ht, hr⟩
    rw [htarget ht] at hr
    cases hr
  simp [extract_ffmpeg, hpre, ha, h1, hcreate, hopen, hunpack, htop, h2,
    hrename, hfinal]

/-- Environment for the C7 concrete checks: archive present, all steps
succeeding, the archive unpacking to the single top-level directory `7`. -/
def c7Env : ExtractEnv :=
  ⟨some 0, true, true, true, true, some 7, true, true, true, true⟩

/-- Counterexample to claim C7 as stated: with a pre-existing directory
(contents `5`) at the output path, extraction is skipped — the old
directory is kept, not removed, and the archive's top-level directory
(contents `7`) is not placed at the output path. -/
theorem extract_preexisting_dir_kept :
    extract_ffmpeg c7Env ⟨some (.dir 5), false⟩ = (.ok (), ⟨some (.dir 5), false⟩)
    ∧ (extract_ffmpeg c7Env ⟨some (.dir 5), false⟩).2.target ≠ some (.dir 7) := by
  decide

/-- Witness for the amended claim C7: a pre-existing non-directory entry
at the output path is removed and replaced by the extracted tree. -/
theorem extract_places_top_dir_witness :
    extract_ffmpeg c7Env ⟨some (.file 3), false⟩
      = (.ok (), { target := some (.dir 7), temp := false }) :=
  extract_places_top_dir c7Env ⟨some (.file 3), false⟩ 7 rfl (by decide)
    (fun _ => rfl) rfl rfl rfl rfl (fun _ => rfl) rfl rfl

end VcpkgFF

namespace VcpkgFF

/-- `VcpkgManager::is_ffmpeg_with_features` (`vcpkg_manager.rs` lines
216-233) as a function of the outcome of the `vcpkg list ffmpeg`
invocation (`none` when the command could not run, otherwise the
exit-status success flag and the captured standard output), the manager's
target triplet and the required feature tags.  Returns `true` only when
the listing text contains `"ffmpeg"`, the triplet, and every feature tag
as substrings. -/
def is_ffmpeg_with_features (listResult : Option (Bool × List Char))
    (triplet : List Char) (features : List (List Char)) : Bool :=
  match listResult with
  | some (true, stdout) =>
    if (containsSub ("ffmpeg".toList) stdout && containsSub triplet stdout) = true then
      features.all (fun f => containsSub f stdout)
    else false
  | _ => false

/-- An installed-package record of the external package manager: name,
installed feature tags, and the triplet it was installed for. -/
structure PkgRecord where
  name : List Char
  features : List (List Char)
  triplet : List Char

/-- Modelled from the spec: the listing output of the external package
manager is produced by the vcpkg binary, which is outside this repository
(the spec treats it as an external collaborator whose "listing format is
not a committed schema" and says package presence and features are
"inferred from listing text").  A record is rendered in the
`name[features]:triplet` line format that `vcpkg list` prints. -/
def renderRecord (r : PkgRecord) : List Char :=
  r.name
    ++ (if r.features.isEmpty then []
        else ("[".toList) ++ (List.intercalate (",".toList) r.features) ++ ("]".toList))
    ++ (":".toList) ++ r.triplet

/-- Modelled from the spec: a listing is one rendered line per installed
package record. -/
def renderListing (rs : List PkgRecord) : List Char :=
  List.intercalate ("\n".toList) (rs.map renderRecord)

/-- The feature tags required by `install_packages`
(`vcpkg_manager.rs` line 247). -/
def requiredFeatures : List (List Char) :=
  [("x264".toList), ("x265".toList), ("vpx".toList)]

/-- Claim C4 (amended): the feature check returns `false` for every
listing in which the manager's target triplet does not occur as a
substring — in particular for a package installed only for triplets whose
names do not contain the target triplet — regardless of which feature
tags appear in the listing.  When the other triplet's name contains the
target triplet as a substring (e.g. `x64-linux-dynamic` against target
`x64-linux`), the substring check wrongly accepts it: see the
counterexample. -/
theorem feature_check_requires_triplet_substring (rs : List PkgRecord)
    (triplet : List Char) (features : List (List Char))
    (h : containsSub triplet (renderListing rs) = false) :
    is_ffmpeg_with_features (some (true, renderListing rs)) triplet features
      = false := by
  simp [is_ffmpeg_with_features, h]

/-- Counterexample to claim C4 as stated: a listing reporting ffmpeg
installed only for the triplet `x64-linux-dynamic` — different from the
manager's target triplet `x64-linux` — with every required feature tag
present, is accepted by the feature check. -/
theorem feature_check_triplet_substring_collision :
    is_ffmpeg_with_features
        (some (true, renderListing
          [⟨("ffmpeg".toList), requiredFeatures, ("x64-linux-dynamic".toList)⟩]))
        ("x64-linux".toList) requiredFeatures = true
    ∧ ∀ r ∈ [(⟨("ffmpeg".toList), requiredFeatures,
          ("x64-linux-dynamic".toList)⟩ : PkgRecord)],
        r.triplet ≠ ("x64-linux".toList) := by
  constructor
  · decide
  · intro r hr
    rw [List.mem_singleton.1 hr]
    decide

/-- Witness for the amended claim C4: a listing for the `x64-osx` triplet
with all feature tags present is rejected when the target triplet is
`x64-windows-static`. -/
theorem feature_check_requires_triplet_substring_witness :
    containsSub ("x64-windows-static".toList)
        (renderListing [⟨("ffmpeg".toList), requiredFeatures, ("x64-osx".toList)⟩])
      = false
    ∧ is_ffmpeg_with_features
        (some (true, renderListing
          [⟨("ffmpeg".toList), requiredFeatures, ("x64-osx".toList)⟩]))
        ("x64-windows-static".toList) requiredFeatures = false :=
  ⟨by decide,
   feature_check_requires_triplet_substring
     [⟨("ffmpeg".toList), requiredFeatures, ("x64-osx".toList)⟩]
     ("x64-windows-static".toList) requiredFeatures (by decide)⟩

end VcpkgFF

namespace VcpkgFF

/-- Errors of the dependency-install stage: a named message built by the
code, or an opaque propagated I/O error (a `?` on a process invocation). -/
inductive PkgErr
  | named (msg : List Char)
  | io
deriving DecidableEq

/-- External-world outcomes consumed by `install_packages`. -/
structure PkgEnv where
  /-- `is_installed()`: the vcpkg executable exists at its expected path. -/
  installed : Bool
  /-- Outcome of `vcpkg list ffmpeg` (`none` = the command could not
  run; otherwise exit-status success flag and captured stdout). -/
  listResult : Option (Bool × List Char)
  /-- Status of `vcpkg remove ffmpeg:<triplet>` (`none` = spawn error). -/
  removeStatus : Option Bool
  /-- Status of `vcpkg install ffmpeg[...]:<triplet>` (`none` = spawn
  error). -/
  installStatus : Option Bool

/-- Argument list of the `vcpkg list ffmpeg` invocation. -/
def vcpkgListCmd : List (List Char) := [("list".toList), ("ffmpeg".toList)]

/-- Argument list of the `vcpkg remove` invocation. -/
def vcpkgRemoveCmd (triplet : List Char) : List (List Char) :=
  [("remove".toList), ("ffmpeg:".toList) ++ triplet]

/-- Argument list of the `vcpkg install` invocation. -/
def vcpkgInstallCmd (triplet : List Char) : List (List Char) :=
  [("install".toList), ("ffmpeg[x264,x265,vpx]:".toList) ++ triplet]

/-- `VcpkgManager::install_packages` (`vcpkg_manager.rs` lines 238-309),
returning its result and the argument lists of the external commands it
invoked, in order.  The guard `is_installed()` is checked first; the
feature check runs `vcpkg list ffmpeg` once, and on a failed feature
check the listing is consulted again (a second `list` invocation) to
decide whether an incompatible install must be removed before the
install command. -/
def install_packages (e : PkgEnv) (triplet : List Char) :
    Except PkgErr Unit × List (List (List Char)) :=
  if e.installed = false then
    (.error (.named ("vcpkg is not installed, please call install_vcpkg() first".toList)), [])
  else if is_ffmpeg_with_features e.listResult triplet requiredFeatures = true then
    (.ok (), [vcpkgListCmd])
  else
    let removePart : Except PkgErr Unit × List (List (List Char)) :=
      match e.listResult with
      | some (true, stdout) =>
        if (containsSub ("ffmpeg".toList) stdout && containsSub triplet stdout) = true then
          match e.removeStatus with
          | none => (.error .io, [vcpkgRemoveCmd triplet])
          | some false =>
            (.error (.named ("Failed to remove existing ffmpeg package".toList)),
             [vcpkgRemoveCmd triplet])
          | some true => (.ok (), [vcpkgRemoveCmd triplet])
        else (.ok (), [])
      | _ => (.ok (), [])
    match removePart.1 with
    | .error err => (.error err, [vcpkgListCmd, vcpkgListCmd] ++ removePart.2)
    | .ok _ =>
      let cmds := [vcpkgListCmd, vcpkgListCmd] ++ removePart.2
        ++ [vcpkgInstallCmd triplet]
      match e.installStatus with
      | none => (.error .io, cmds)
      | some false => (.error (.named ("ffmpeg installation failed".toList)), cmds)
      | some true => (.ok (), cmds)

/-- Claim C10: when the vcpkg executable does not exist at its expected
path, `install_packages` returns the bootstrap-precondition error
immediately and invokes no external command at all. -/
theorem install_packages_requires_bootstrap (e : PkgEnv) (triplet : List Char)
    (h : e.installed = false) :
    install_packages e triplet
      = (.error (.named ("vcpkg is not installed, please call install_vcpkg() first".toList)),
         []) := by
  simp [install_packages, h]

/-- Witness for claim C10 at a concrete environment with the tool
absent. -/
theorem install_packages_requires_bootstrap_witness :
    install_packages ⟨false, none, none, none⟩ ("x64-linux".toList)
      = (.error (.named ("vcpkg is not installed, please call install_vcpkg() first".toList)),
         []) :=
  install_packages_requires_bootstrap ⟨false, none, none, none⟩
    ("x64-linux".toList) rfl

end VcpkgFF
